import Mathlib

/-!
Verification of the openai-proxy-monitor HTTP gateway (Rust, pingora-based)
against its natural-language specification.

The Rust sources are shallowly embedded:
* `HashMap<String, _>` values are modelled as association lists with
  first-match lookup; `insert` overwrites, `remove` deletes, matching the
  observable get/insert/remove semantics of the Rust map (iteration order is
  not observed by any embedded operation).
* external collaborators (the tiktoken BPE tokenizer, serde_json text
  parsing, the ai_api_converter crate, gzip decompression, `http::Uri`
  validation, SHA-256) are abstracted as function parameters; everything the
  repository itself computes is embedded concretely.
* async suspension, locks and atomics are modelled away: each request is a
  sequential run of the pingora phase callbacks in their documented order.
-/

namespace ProxyMonitor

/-- Association-list map with `HashMap`-style first-match lookup. -/
def mapGet {α : Type} : List (String × α) → String → Option α
  | [], _ => none
  | p :: rest, k => if p.1 = k then some p.2 else mapGet rest k

/-- Model of `HashMap::remove` (drops the entry for a key). -/
def mapRemove {α : Type} : List (String × α) → String → List (String × α)
  | [], _ => []
  | p :: rest, k => if p.1 = k then mapRemove rest k else p :: mapRemove rest k

/-- Model of `HashMap::insert` (overwrites an existing entry). -/
def mapInsert {α : Type} (m : List (String × α)) (k : String) (v : α) :
    List (String × α) :=
  (k, v) :: mapRemove m k

/-- Model of `HashMap::contains_key`. -/
def mapContains {α : Type} (m : List (String × α)) (k : String) : Bool :=
  (mapGet m k).isSome

/-- Model of `HashMap::get_mut` followed by an in-place update. -/
def mapModify {α : Type} : List (String × α) → String → (α → α) → List (String × α)
  | [], _, _ => []
  | p :: rest, k, f => (if p.1 = k then (p.1, f p.2) else p) :: mapModify rest k f

theorem mapGet_remove {α : Type} (m : List (String × α)) (k k' : String) :
    mapGet (mapRemove m k) k' = if k' = k then none else mapGet m k' := by
  induction m with
  | nil => simp [mapRemove, mapGet]
  | cons p rest ih =>
    rcases eq_or_ne p.1 k with h1 | h1
    · rcases eq_or_ne k' k with h2 | h2
      · subst h2; simp [mapRemove, mapGet, h1, ih]
      · have h3 : p.1 ≠ k' := fun hh => h2 (hh.symm.trans h1)
        have h4 : k ≠ k' := fun hh => h2 hh.symm
        simp [mapRemove, mapGet, h1, h2, h3, h4, ih]
    · rcases eq_or_ne k' k with h2 | h2
      · subst h2; simp [mapRemove, mapGet, h1, ih]
      · rcases eq_or_ne p.1 k' with h3 | h3
        · simp [mapRemove, mapGet, h1, h2, h3]
        · simp [mapRemove, mapGet, h1, h2, h3, ih]

theorem mapGet_insert {α : Type} (m : List (String × α)) (k k' : String) (v : α) :
    mapGet (mapInsert m k v) k' = if k' = k then some v else mapGet m k' := by
  by_cases h : k' = k
  · simp [mapInsert, mapGet, h]
  · have h2 : ¬ (k = k') := fun hh => h hh.symm
    simp [mapInsert, mapGet, h2, h, mapGet_remove]

theorem mapGet_modify {α : Type} (m : List (String × α)) (k k' : String) (f : α → α) :
    mapGet (mapModify m k f) k' =
      if k' = k then (mapGet m k).map f else mapGet m k' := by
  induction m with
  | nil => simp [mapModify, mapGet]
  | cons p rest ih =>
    rcases eq_or_ne p.1 k with h1 | h1
    · rcases eq_or_ne k' k with h2 | h2
      · subst h2; simp [mapModify, mapGet, h1, ih]
      · have h3 : p.1 ≠ k' := fun hh => h2 (hh.symm.trans h1)
        have h4 : k ≠ k' := fun hh => h2 hh.symm
        simp [mapModify, mapGet, h1, h2, h3, h4, ih]
    · rcases eq_or_ne k' k with h2 | h2
      · subst h2; simp [mapModify, mapGet, h1, ih]
      · rcases eq_or_ne p.1 k' with h3 | h3
        · simp [mapModify, mapGet, h1, h2, h3]
        · simp [mapModify, mapGet, h1, h2, h3, ih]

theorem mapContains_modify {α : Type} (m : List (String × α)) (k k' : String) (f : α → α) :
    mapContains (mapModify m k f) k' = mapContains m k' := by
  by_cases h : k' = k
  · subst h
    simp only [mapContains, mapGet_modify, if_pos rfl]
    cases hm : mapGet m k' <;> simp
  · simp [mapContains, mapGet_modify, h]

theorem mapContains_insert {α : Type} (m : List (String × α)) (k k' : String) (v : α) :
    mapContains (mapInsert m k v) k' = (decide (k' = k) || mapContains m k') := by
  by_cases h : k' = k <;> simp [mapContains, mapGet_insert, h]

/-! String helpers mirroring the Rust `str` methods used by the sources.
They operate on the character list underlying a `String`, which agrees with
Rust byte-level slicing at every use site (the patterns sliced on are ASCII). -/

/-- Model of Rust `str::starts_with` for string patterns. -/
def strStartsWith (s pat : String) : Bool :=
  pat.data.isPrefixOf s.data

/-- Model of Rust `str::ends_with` for string patterns. -/
def strEndsWith (s pat : String) : Bool :=
  pat.data.isSuffixOf s.data

/-- Does the character list `pat` occur contiguously inside `s`? -/
def charsContain (s pat : List Char) : Bool :=
  match s with
  | [] => pat.isEmpty
  | _ :: tail => pat.isPrefixOf s || charsContain tail pat

/-- Model of Rust `str::contains` for string patterns. -/
def strContains (s pat : String) : Bool :=
  charsContain s.data pat.data

/-- Model of Rust byte slicing `&s[n..]` (only used after an ASCII-pattern
`starts_with` check, where byte offsets and char offsets agree). -/
def strDrop (s : String) (n : Nat) : String :=
  String.mk (s.data.drop n)

/-- Drop the final character (used to model stripping a trailing CR). -/
def strDropRight1 (s : String) : String :=
  String.mk (s.data.dropLast)

/-- Model of Rust `str::to_lowercase` (ASCII is all the call sites compare). -/
def strToLower (s : String) : String :=
  String.mk (s.data.map Char.toLower)

/-- Split a character list on a non-empty separator, Rust `str::split`
style. Structural recursion over a fuel argument; every recursive call
consumes at least one character, so fuel equal to the list length (as
supplied by `charsSplitOn`) never runs out and the `0`-fuel branch is
unreachable. -/
def charsSplitOnFuel (sep : List Char) : Nat → List Char → List (List Char)
  | _, [] => [[]]
  | 0, xs => [xs]
  | fuel + 1, c :: rest =>
    if sep.isPrefixOf (c :: rest) && !sep.isEmpty then
      [] :: charsSplitOnFuel sep fuel (rest.drop (sep.length - 1))
    else
      match charsSplitOnFuel sep fuel rest with
      | [] => [[c]]
      | h :: t => (c :: h) :: t

/-- Split a character list on a non-empty separator, Rust `str::split` style. -/
def charsSplitOn (sep xs : List Char) : List (List Char) :=
  charsSplitOnFuel sep xs.length xs

/-- Model of Rust `str::split` on a string pattern. -/
def strSplitOnStr (s sep : String) : List String :=
  if sep.data.isEmpty then [s]
  else (charsSplitOn sep.data s.data).map String.mk

/-- Model of Rust `str::lines`: split on LF, drop an optional final line
terminator, strip a CR preceding each LF. -/
def strLines (s : String) : List String :=
  let parts := strSplitOnStr s "\n"
  let terminated := parts.dropLast.map
    (fun l => if strEndsWith l "\r" then strDropRight1 l else l)
  match parts.getLast? with
  | some "" => terminated
  | some last => terminated ++ [last]
  | none => terminated

/-! JSON values, standing for the result of `serde_json` text parsing.
Request/response bodies are represented by their parse result: an
`Option Json` where `none` means "absent or not valid JSON text". -/

/-- A parsed JSON value (`serde_json::Value`). -/
inductive Json where
  | null
  | bool (b : Bool)
  | num (n : Int)
  | str (s : String)
  | arr (xs : List Json)
  | obj (fields : List (String × Json))

/-- Model of `Value::get` on an object (first matching field). -/
def jsonGet (j : Json) (key : String) : Option Json :=
  match j with
  | Json.obj fields => mapGet fields key
  | _ => none

/-- Model of `Value::as_str`. -/
def jsonAsStr : Json → Option String
  | Json.str s => some s
  | _ => none

/-! Embedding of `src/utils.rs`: the Identifier. Header maps are modelled as
association lists of name/value strings (pingora lowercases header names, so
exact-match lookup on the lowercase names used by the source is faithful). -/

/-- The `ApiService` enum from utils.rs. -/
inductive ApiService where
  | google
  | openai
  | anthropic
  | unknown
deriving DecidableEq, Repr

/-- The `ApiRequest` struct from utils.rs (the Identifier result). -/
structure ApiRequest where
  service : ApiService
  api_key : Option String
  model : Option String
deriving DecidableEq, Repr

/-- Header lookup (`HeaderMap::get` composed with `to_str().ok()`). -/
def headerGet (headers : List (String × String)) (name : String) : Option String :=
  mapGet headers name

/-- `extract_bearer_token` from utils.rs. -/
def extract_bearer_token (headers : List (String × String)) : Option String :=
  (headerGet headers "authorization").bind
    (fun s => if strStartsWith s "Bearer " then some (strDrop s 7) else none)

/-- `extract_model_from_body` from utils.rs (serde text parsing folded into
the `Option Json` body representation). -/
def extract_model_from_body (body : Option Json) : Option String :=
  body.bind (fun j => (jsonGet j "model").bind jsonAsStr)

/-- The path part of `extract_model_from_path_or_body` from utils.rs. -/
def extract_model_from_path (path : String) : Option String :=
  let segments := strSplitOnStr path "/"
  match segments.findIdx? (fun s => s == "models") with
  | none => none
  | some i =>
    match segments.get? (i + 1) with
    | none => none
    | some seg => (strSplitOnStr seg ":").head?

/-- `extract_model_from_path_or_body` from utils.rs. -/
def extract_model_from_path_or_body (path : String) (body : Option Json) :
    Option String :=
  match extract_model_from_body body with
  | some m => some m
  | none => extract_model_from_path path

/-- `is_google_gemini_path` from utils.rs. -/
def is_google_gemini_path (path : String) : Bool :=
  strContains path ":generateContent" ||
  strContains path ":embedContent" ||
  strContains path ":batchEmbedContents" ||
  strContains path ":streamGenerateContent" ||
  strContains path ":countTokens" ||
  strContains path "/models/gemini" ||
  strContains path "/models/text-" ||
  strContains path "/models/embedding-" ||
  (strContains path "/v1/models" && strContains path "google") ||
  (strContains path "/v1beta/models" && strContains path ":")

/-- `is_openai_path` from utils.rs. -/
def is_openai_path (path : String) : Bool :=
  path == "/v1/chat/completions" ||
  path == "/v1/completions" ||
  path == "/v1/embeddings" ||
  path == "/v1/audio/transcriptions" ||
  path == "/v1/audio/translations" ||
  path == "/v1/images/generations" ||
  path == "/v1/images/edits" ||
  path == "/v1/images/variations" ||
  path == "/v1/models" ||
  strStartsWith path "/v1/fine-tuning/" ||
  strStartsWith path "/v1/files" ||
  strStartsWith path "/v1/assistants" ||
  strStartsWith path "/v1/threads" ||
  strStartsWith path "/v1/vector_stores" ||
  (strContains path "/v1/" &&
    (strContains path "/runs" ||
      (strContains path "/messages" && !strContains path "anthropic")))

/-- `is_anthropic_path` from utils.rs. -/
def is_anthropic_path (path : String) : Bool :=
  path == "/v1/messages" ||
  path == "/v1/complete" ||
  strStartsWith path "/v1/messages/" ||
  (strContains path "/v1/" && strContains path "claude")

/-- The User-Agent checks inside `detect_service_by_headers`. -/
def uaService (ua : String) : Option ApiService :=
  let l := strToLower ua
  if strContains l "anthropic" || strContains l "claude" then some ApiService.anthropic
  else if strContains l "google" || strContains l "gemini" then some ApiService.google
  else if strContains l "openai" || strContains l "gpt" then some ApiService.openai
  else none

/-- The Origin/Referer checks inside `detect_service_by_headers`. -/
def originService (o : String) : Option ApiService :=
  let l := strToLower o
  if strContains l "anthropic.com" || strContains l "claude.ai" then
    some ApiService.anthropic
  else if strContains l "google.com" || strContains l "googleapis.com" then
    some ApiService.google
  else if strContains l "openai.com" then some ApiService.openai
  else none

/-- `detect_service_by_headers` from utils.rs. -/
def detect_service_by_headers (headers : List (String × String)) :
    Option ApiService :=
  match (headerGet headers "user-agent").bind uaService with
  | some s => some s
  | none =>
    match (headerGet headers "origin").bind originService with
    | some s => some s
    | none => (headerGet headers "referer").bind originService

/-- `parse_request_via_path_and_header` from utils.rs: the Identifier. -/
def parse_request_via_path_and_header (path : String)
    (headers : List (String × String)) (body : Option Json) : ApiRequest :=
  match headerGet headers "x-api-key" with
  | some api_key =>
    { service := ApiService.anthropic, api_key := some api_key,
      model := extract_model_from_body body }
  | none =>
  match headerGet headers "x-goog-api-key" with
  | some api_key =>
    { service := ApiService.google, api_key := some api_key,
      model := extract_model_from_path_or_body path body }
  | none =>
  if is_google_gemini_path path then
    { service := ApiService.google, api_key := extract_bearer_token headers,
      model := extract_model_from_path_or_body path body }
  else if is_openai_path path then
    { service := ApiService.openai, api_key := extract_bearer_token headers,
      model := extract_model_from_body body }
  else if is_anthropic_path path then
    { service := ApiService.anthropic, api_key := extract_bearer_token headers,
      model := extract_model_from_body body }
  else
    match detect_service_by_headers headers with
    | some s =>
      { service := s, api_key := extract_bearer_token headers,
        model := extract_model_from_body body }
    | none =>
      { service := ApiService.unknown, api_key := none, model := none }

/-! Embedding of `src/http_proxy/types.rs`. -/

/-- The `Peer` struct from types.rs. -/
structure Peer where
  tls : Bool
  addr : String
  port : Nat
deriving DecidableEq, Repr

/-- The `ChannelConfig` struct from types.rs. -/
structure ChannelConfig where
  channel_id : String
  name : String
  peer : Peer
  service : ApiService
  weight : Nat
  enabled : Bool
  api_keys : List String
deriving DecidableEq, Repr

/-- The `LoadBalanceStrategy` enum from types.rs. -/
inductive LoadBalanceStrategy where
  | roundRobin
  | weightedRandom
  | leastConnections
  | failoverOnly
deriving DecidableEq, Repr

/-- The `SmartRoutingRule` struct from types.rs. -/
structure SmartRoutingRule where
  rule_id : String
  model_patterns : List String
  channels : List String
  load_balance_strategy : LoadBalanceStrategy
  fallback_channels : List String
  enabled : Bool
deriving DecidableEq, Repr

/-- The `ApiKeyCache` struct from types.rs (both `HashMap`s as assoc lists). -/
structure ApiKeyCache where
  key_to_channel : List (String × String)
  channel_configs : List (String × ChannelConfig)
  routing_rules : List SmartRoutingRule
deriving DecidableEq, Repr

/-- The `RequestType` enum from types.rs. -/
inductive RequestType where
  | stream
  | nonStream
deriving DecidableEq, Repr

/-- The `OpenAIRequest` struct from types.rs (canonical accounting form). -/
structure OpenAIRequest where
  model : String
  request_type : RequestType
  prompt_tokens : Nat
deriving DecidableEq, Repr

/-- The `Message` struct from types.rs. -/
structure Message where
  content : String
deriving DecidableEq, Repr

/-- The `OpenAIRequestBody` struct from types.rs (after deserialization). -/
structure OpenAIRequestBody where
  model : String
  stream : Bool
  messages : List Message
  prompt : Option (List String)
deriving DecidableEq, Repr

/-- The `Delta` struct from types.rs. -/
structure Delta where
  content : Option String
deriving DecidableEq, Repr

/-- The `Choice` struct from types.rs. -/
structure Choice where
  delta : Option Delta
  text : Option String
deriving DecidableEq, Repr

/-- The `StreamingResponse` struct from types.rs. -/
structure StreamingResponse where
  choices : List Choice
deriving DecidableEq, Repr

/-- The `Usage` struct from types.rs. -/
structure Usage where
  prompt_tokens : Nat
  completion_tokens : Nat
deriving DecidableEq, Repr

/-- The `UsageResponse` struct from types.rs. -/
structure UsageResponse where
  usage : Usage
deriving DecidableEq, Repr

/-- The `TokenUsage` struct from types.rs. -/
structure TokenUsage where
  prompt_tokens : Nat
  completion_tokens : Nat
deriving DecidableEq, Repr

/-! Serde derive semantics for the structs above, as functions from a parsed
JSON value: a missing `#[serde(default)]` field defaults, a present field of
the wrong shape fails the whole deserialization. -/

/-- Deserialize `Delta` (`content` optional string, default `None`,
JSON null also `None`, any other shape an error). -/
def jsonToDelta (j : Json) : Option Delta :=
  match j with
  | Json.obj _ =>
    match jsonGet j "content" with
    | none => some { content := none }
    | some Json.null => some { content := none }
    | some (Json.str s) => some { content := some s }
    | some _ => none
  | _ => none

/-- Deserialize `Choice` (`delta` and `text` both `#[serde(default)]`). -/
def jsonToChoice (j : Json) : Option Choice :=
  match j with
  | Json.obj _ => do
    let delta ← match jsonGet j "delta" with
      | none => some none
      | some Json.null => some none
      | some dj => (jsonToDelta dj).map some
    let text ← match jsonGet j "text" with
      | none => some none
      | some Json.null => some none
      | some (Json.str s) => some (some s)
      | some _ => none
    some { delta := delta, text := text }
  | _ => none

/-- Deserialize `StreamingResponse` (`choices` is a required array). -/
def jsonToStreamingResponse (j : Json) : Option StreamingResponse :=
  match j with
  | Json.obj _ =>
    match jsonGet j "choices" with
    | some (Json.arr xs) => (xs.mapM jsonToChoice).map StreamingResponse.mk
    | _ => none
  | _ => none

/-- Deserialize `Message` (`content` is a required string). -/
def jsonToMessage (j : Json) : Option Message :=
  match j with
  | Json.obj _ =>
    match jsonGet j "content" with
    | some (Json.str s) => some { content := s }
    | _ => none
  | _ => none

/-- The `deserialize_prompt` visitor from parsing.rs: accepts a string, an
array of strings, or null. -/
def jsonToPrompt (j : Json) : Option (Option (List String)) :=
  match j with
  | Json.null => some none
  | Json.str s => some (some [s])
  | Json.arr xs => (xs.mapM jsonAsStr).map some
  | _ => none

/-- Deserialize `OpenAIRequestBody`: `model` is a required string; `stream`,
`messages` and `prompt` carry `#[serde(default)]`. -/
def jsonToOpenAIRequestBody (j : Json) : Option OpenAIRequestBody :=
  match j with
  | Json.obj _ => do
    let model ← (jsonGet j "model").bind jsonAsStr
    let stream ← match jsonGet j "stream" with
      | none => some false
      | some (Json.bool b) => some b
      | some _ => none
    let messages ← match jsonGet j "messages" with
      | none => some []
      | some (Json.arr xs) => xs.mapM jsonToMessage
      | some _ => none
    let prompt ← match jsonGet j "prompt" with
      | none => some none
      | some pj => jsonToPrompt pj
    some { model := model, stream := stream, messages := messages,
           prompt := prompt }
  | _ => none

/-- Deserialize `Usage` / `UsageResponse` (both fields required `u64`). -/
def jsonToUsageResponse (j : Json) : Option UsageResponse :=
  match j with
  | Json.obj _ =>
    match jsonGet j "usage" with
    | some (Json.obj _) =>
      match jsonGet j "usage" with
      | some uj =>
        match jsonGet uj "prompt_tokens", jsonGet uj "completion_tokens" with
        | some (Json.num p), some (Json.num c) =>
          if 0 ≤ p ∧ 0 ≤ c then
            some { usage := { prompt_tokens := p.toNat,
                              completion_tokens := c.toNat } }
          else none
        | _, _ => none
      | none => none
    | _ => none
  | _ => none

/-! Embedding of `src/http_proxy/parsing.rs`. The tokenizer
(`CoreBPE::encode_with_special_tokens(_).len()` behind `calculate_tokens`)
is the out-of-scope BPE encoder and is passed as a parameter
`tok : String → Nat`. Errors carry the HTTP status used by
`Error::explain(HTTPStatus(...))`. -/

/-- `parse_request` from parsing.rs. The body is represented by its
serde_json parse result (`none` = invalid JSON text), on top of which the
`OpenAIRequestBody` field validation is applied. -/
def parse_request (tok : String → Nat) (body : Option Json) (path : String) :
    Except Nat OpenAIRequest :=
  match body.bind jsonToOpenAIRequestBody with
  | none => Except.error 400
  | some b =>
    if b.stream then
      let tokens :=
        if strContains path "/chat/completions" then
          (b.messages.map (fun msg => tok msg.content)).sum
        else if strContains path "/completions" then
          match b.prompt with
          | some prompts => (prompts.map tok).sum
          | none => 0
        else 0
      Except.ok { model := b.model, request_type := RequestType.stream,
                  prompt_tokens := tokens }
    else
      Except.ok { model := b.model, request_type := RequestType.nonStream,
                  prompt_tokens := 0 }

/-- The line selection of `parse_streaming_response`: split the buffer on
LF bytes, keep lines starting with `data: ` followed by an opening brace,
drop that 6-byte prefix. -/
def streamLines (buffer : String) : List String :=
  ((strSplitOnStr buffer "\n").filter
    (fun l => strStartsWith l "data: \x7b")).map (fun l => strDrop l 6)

/-- The per-choice fragment selection of `parse_streaming_response`:
`delta.content` if present, else `text`. -/
def choiceContent (c : Choice) : Option String :=
  match c.delta.bind (fun d => d.content) with
  | some s => some s
  | none => c.text

/-- `parse_streaming_response` from parsing.rs. `parseJsonStr` stands for
serde_json text parsing of one line; the fold mirrors the Rust closure that
pushes each fragment onto `final_context` while summing per-fragment token
counts (only the sum is returned). -/
def parse_streaming_response (tok : String → Nat)
    (parseJsonStr : String → Option Json) (buffer : String) : Nat :=
  let responses := (streamLines buffer).filterMap
    (fun line => (parseJsonStr line).bind jsonToStreamingResponse)
  let fragments := (responses.flatMap (fun r => r.choices)).filterMap choiceContent
  (fragments.foldl (fun acc content => (acc.1 ++ content, acc.2 + tok content))
    ("", 0)).2

/-- The per-event step of `extract_json_from_sse`: first `data: ` line of
the event, skipped when it mentions `[DONE]` or carries an empty payload. -/
def eventJson (event : String) : Option String :=
  match (strLines event).find? (fun l => strStartsWith l "data: ") with
  | none => none
  | some line =>
    if strContains line "[DONE]" then none
    else
      let json_str := strDrop line 6
      if json_str.data.isEmpty then none else some json_str

/-- `extract_json_from_sse` from parsing.rs: the payload of the first
usable event of the chunk. -/
def extract_json_from_sse (sse_data : String) : Option String :=
  (strSplitOnStr sse_data "\n\n").findSome? eventJson

/-! Embedding of `src/http_proxy/config.rs`. SHA-256 (`hash_api_key`) is
the external `sha2` crate, passed as a parameter `hash : String → String`.
`RwLock` poisoning never occurs in the sequential model, so the
administrative operations fail only on their explicit checks. -/

/-- `RateLimitingConfig` from config.rs. -/
structure RateLimitingConfig where
  window_duration_min : Nat
  max_prompt_tokens : Nat
  user_header_key : String
deriving DecidableEq, Repr

/-- `check_rate_limit` from config.rs. `fetchResult` is the value or error
produced by the rate-limiter backend `fetch_sliding_window` call. -/
def check_rate_limit (fetchResult : Except String Nat)
    (cfg : RateLimitingConfig) : Except Nat Unit :=
  match fetchResult with
  | Except.error _ => Except.error 502
  | Except.ok count =>
    if count > cfg.max_prompt_tokens then Except.error 429
    else Except.ok ()

/-- `find_channel_by_api_key` from config.rs. -/
def find_channel_by_api_key (hash : String → String) (cache : ApiKeyCache)
    (api_key : String) : Option ChannelConfig :=
  (mapGet cache.key_to_channel (hash api_key)).bind
    (fun channel_id => mapGet cache.channel_configs channel_id)

/-- `add_channel_config` from config.rs: store the config under its id, then
point every hash in its `api_keys` list at that id. -/
def add_channel_config (cache : ApiKeyCache) (config : ChannelConfig) :
    ApiKeyCache :=
  { cache with
    channel_configs := mapInsert cache.channel_configs config.channel_id config,
    key_to_channel := config.api_keys.foldl
      (fun m h => mapInsert m h config.channel_id) cache.key_to_channel }

/-- `add_api_key_mapping` from config.rs: fails if the channel does not
exist; otherwise maps the key hash to the channel and appends the hash to
the channel's list when absent. -/
def add_api_key_mapping (hash : String → String) (cache : ApiKeyCache)
    (api_key channel_id : String) : Option ApiKeyCache :=
  let api_key_hash := hash api_key
  if mapContains cache.channel_configs channel_id then
    some { cache with
      key_to_channel := mapInsert cache.key_to_channel api_key_hash channel_id,
      channel_configs := mapModify cache.channel_configs channel_id
        (fun config =>
          if config.api_keys.contains api_key_hash then config
          else { config with api_keys := config.api_keys ++ [api_key_hash] }) }
  else none

/-- `remove_api_key_mapping` from config.rs: drop the hash from the key map
and, when it was mapped, from that channel's list. -/
def remove_api_key_mapping (hash : String → String) (cache : ApiKeyCache)
    (api_key : String) : ApiKeyCache :=
  let api_key_hash := hash api_key
  match mapGet cache.key_to_channel api_key_hash with
  | some channel_id =>
    { cache with
      key_to_channel := mapRemove cache.key_to_channel api_key_hash,
      channel_configs := mapModify cache.channel_configs channel_id
        (fun config =>
          { config with
            api_keys := config.api_keys.filter (fun k => k != api_key_hash) }) }
  | none => cache

/-- `set_channel_enabled` from config.rs. -/
def set_channel_enabled (cache : ApiKeyCache) (channel_id : String)
    (enabled : Bool) : Option ApiKeyCache :=
  if mapContains cache.channel_configs channel_id then
    some { cache with
      channel_configs := mapModify cache.channel_configs channel_id
        (fun config => { config with enabled := enabled }) }
  else none

/-- `update_channel_weight` from config.rs. -/
def update_channel_weight (cache : ApiKeyCache) (channel_id : String)
    (weight : Nat) : Option ApiKeyCache :=
  if mapContains cache.channel_configs channel_id then
    some { cache with
      channel_configs := mapModify cache.channel_configs channel_id
        (fun config => { config with weight := weight }) }
  else none

/-! Embedding of `src/http_proxy/proxy.rs`. External collaborators appear as
parameters: `validUri` models `http::Uri::from_str` success, `gunzip` the
flate2 decompressor, `parseJsonStr` serde_json text parsing, `conv` the
ai_api_converter streaming converter (constructor + `set_original_model` +
`convert_from_openai_streaming_chunk` + extraction of a string payload from
`ConversionResult::data`), and `convertReq` the request-direction converter
(`convert_request_format`, `none` = conversion error, in which case the
original body proceeds upstream). -/

/-- `configure_upstream_request` from proxy.rs: the auth header(s) inserted
for the chosen upstream dialect and the rewritten URI. For Google the URI is
only rewritten when a model was extracted; an invalid formatted path falls
back to the gemini-pro URI. An `unknown` upstream dialect is a 400. -/
def configure_upstream_request (validUri : String → Bool) (origUri : String)
    (api_key : String) (upstream_service : ApiService) (model : Option String) :
    Except Nat (List (String × String) × String) :=
  match upstream_service with
  | ApiService.anthropic =>
    Except.ok ([("x-api-key", api_key), ("anthropic-version", "2023-06-01")],
      "/v1/messages")
  | ApiService.openai =>
    Except.ok ([("Authorization", "Bearer " ++ api_key)], "/v1/chat/completions")
  | ApiService.google =>
    match model with
    | some model_name =>
      let path := "/v1beta/models/" ++ model_name ++ ":generateContent"
      Except.ok ([("x-goog-api-key", api_key)],
        if validUri path then path
        else "/v1beta/models/gemini-pro:generateContent")
    | none => Except.ok ([("x-goog-api-key", api_key)], origUri)
  | ApiService.unknown => Except.error 400

/-- `is_streaming_response` from proxy.rs. -/
def is_streaming_response (data : String) : Bool :=
  strStartsWith data "data: " || strContains data "event: " ||
    strContains data "[DONE]"

/-- `decode_body` from code_body.rs: decompress a gzip-encoded chunk, pass
everything else through; `none` when there is no body or gunzip fails. -/
def decode_body (gunzip : String → Option String)
    (contentEncoding : Option String) (body : Option String) : Option String :=
  match contentEncoding with
  | some enc =>
    match body with
    | some b => if strContains enc "gzip" then gunzip b else some b
    | none => none
  | none => body

/-- The `model` extraction inside `convert_streaming_response`. -/
def chunkModel (json_value : Json) : String :=
  match (jsonGet json_value "model").bind jsonAsStr with
  | some m => m
  | none => "unknown"

/-- `convert_streaming_response` from proxy.rs: extract the first SSE JSON
payload, parse it, pass through (`none`) when source and upstream dialects
agree, otherwise hand the event to the source-dialect converter. -/
def convert_streaming_response (parseJsonStr : String → Option Json)
    (conv : ApiService → String → Json → Except String (Option String))
    (src tgt : ApiService) (data : String) : Except String (Option String) :=
  match extract_json_from_sse data with
  | none => Except.ok none
  | some json_str =>
    match parseJsonStr json_str with
    | none => Except.error "invalid json"
    | some json_value =>
      let model := chunkModel json_value
      if src = tgt then Except.ok none
      else
        match src with
        | ApiService.anthropic => conv ApiService.anthropic model json_value
        | ApiService.google => conv ApiService.google model json_value
        | ApiService.openai => conv ApiService.openai model json_value
        | ApiService.unknown => Except.ok none

/-- The streaming branch of `response_body_filter` from proxy.rs, for one
response chunk: the outbound chunk is replaced only when SSE framing is
detected and the converter returns `Ok(Some(_))`. -/
def response_body_filter_chunk (gunzip : String → Option String)
    (parseJsonStr : String → Option Json)
    (conv : ApiService → String → Json → Except String (Option String))
    (contentEncoding : Option String) (src tgt : ApiService)
    (chunk : Option String) : Option String :=
  match decode_body gunzip contentEncoding chunk with
  | some data =>
    if is_streaming_response data then
      match convert_streaming_response parseJsonStr conv src tgt data with
      | Except.ok (some converted) => some converted
      | _ => chunk
    else chunk
  | none => chunk

/-- `finalize_usage_statistics` from proxy.rs (the usage it records): for
streaming requests the precomputed prompt tokens plus the streaming
completion count; for non-streaming the upstream-reported `usage`, falling
back to the precomputed prompt count and zero completion tokens. -/
def finalize_usage_statistics (tok : String → Nat)
    (parseJsonStr : String → Option Json) (req : OpenAIRequest)
    (resp_buffer : String) : TokenUsage :=
  match req.request_type with
  | RequestType.stream =>
    { prompt_tokens := req.prompt_tokens,
      completion_tokens := parse_streaming_response tok parseJsonStr resp_buffer }
  | RequestType.nonStream =>
    match (parseJsonStr resp_buffer).bind jsonToUsageResponse with
    | some response =>
      { prompt_tokens := response.usage.prompt_tokens,
        completion_tokens := response.usage.completion_tokens }
    | none =>
      { prompt_tokens := req.prompt_tokens, completion_tokens := 0 }

/-- The request the proxy sends upstream: headers it set, rewritten URI,
body bytes. -/
structure UpstreamRequest where
  headers : List (String × String)
  uri : String
  body : String
deriving DecidableEq, Repr

/-- The request-side pipeline of proxy.rs, phases in pingora order:
`request_filter` (identify, route, 401 on missing key, upstream auth/URI
rewrite), `upstream_request_filter` (fixed headers, rate gate), and
`request_body_filter` at end-of-stream (`parse_request`, then dialect
conversion unless source equals target). Routing internals (channel cache,
load balancing, fallback) only choose `upstreamService`, which is passed in
as the routing outcome; an error anywhere aborts the request with that HTTP
status before a byte is sent upstream. -/
def runRequest (validUri : String → Bool) (tok : String → Nat)
    (convertReq : String → ApiService → ApiService → Option String)
    (fetchResult : Except String Nat) (cfg : RateLimitingConfig)
    (upstreamService : ApiService) (hostAddr : String)
    (method path : String) (headers : List (String × String))
    (body : Option Json) (rawBody : String) : Except Nat UpstreamRequest :=
  let res := parse_request_via_path_and_header path headers body
  match res.api_key with
  | none => Except.error 401
  | some api_key =>
    match configure_upstream_request validUri path api_key upstreamService
        res.model with
    | Except.error st => Except.error st
    | Except.ok (authHeaders, uri) =>
      match check_rate_limit fetchResult cfg with
      | Except.error st => Except.error st
      | Except.ok _ =>
        let baseHeaders := authHeaders ++
          [("Host", hostAddr), ("Content-Type", "application/json"),
           ("Accept-Encoding", "identity")]
        if method = "POST" then
          match parse_request tok body path with
          | Except.error st => Except.error st
          | Except.ok _ =>
            if res.service = upstreamService then
              Except.ok { headers := baseHeaders, uri := uri, body := rawBody }
            else
              match convertReq rawBody res.service upstreamService with
              | some converted =>
                Except.ok { headers := baseHeaders, uri := uri,
                            body := converted }
              | none =>
                Except.ok { headers := baseHeaders, uri := uri, body := rawBody }
        else
          Except.ok { headers := baseHeaders, uri := uri, body := rawBody }

/-- Observable outcome of one full request lifecycle. -/
structure LifecycleResult where
  status : Nat
  upstreamSent : Option UpstreamRequest
  recordCalls : Nat
deriving DecidableEq, Repr

/-- One full request lifecycle: the request-side pipeline, then
`response_filter` (non-200 upstream status propagates as error) and the
end-of-stream accounting of `response_body_filter`, whose
`record_sliding_window` call happens only when a POST request reached the
upstream and its response completed. -/
def runLifecycle (validUri : String → Bool) (tok : String → Nat)
    (convertReq : String → ApiService → ApiService → Option String)
    (fetchResult : Except String Nat) (cfg : RateLimitingConfig)
    (upstreamService : ApiService) (hostAddr : String)
    (method path : String) (headers : List (String × String))
    (body : Option Json) (rawBody : String) (upstreamStatus : Nat) :
    LifecycleResult :=
  match runRequest validUri tok convertReq fetchResult cfg upstreamService
      hostAddr method path headers body rawBody with
  | Except.error st => { status := st, upstreamSent := none, recordCalls := 0 }
  | Except.ok ur =>
    if upstreamStatus ≠ 200 then
      { status := upstreamStatus, upstreamSent := some ur, recordCalls := 0 }
    else
      { status := 200, upstreamSent := some ur,
        recordCalls := if method = "POST" then 1 else 0 }

/-! Specification-side definitions, written from the spec text so they can
be compared with the code embeddings above. -/

/-- The text fragments of an accumulated streaming buffer: the `data: `
lines opening a JSON object, parsed, each choice contributing
`delta.content` if present else `text` (spec section 4.5; this selection
matches the code's). -/
def streamFragments (parseJsonStr : String → Option Json) (buffer : String) :
    List String :=
  (((streamLines buffer).filterMap
      (fun line => (parseJsonStr line).bind jsonToStreamingResponse)).flatMap
    (fun r => r.choices)).filterMap choiceContent

/-- From the spec (section 4.5): "concatenate the text fragments and run
the tokenizer exactly once over the concatenation". -/
def spec_completion_tokens_once (tok : String → Nat)
    (parseJsonStr : String → Option Json) (buffer : String) : Nat :=
  tok (String.join (streamFragments parseJsonStr buffer))

/-- Amended accounting: the tokenizer runs on each text fragment separately
and the per-fragment counts are summed. -/
def spec_completion_tokens_summed (tok : String → Nat)
    (parseJsonStr : String → Option Json) (buffer : String) : Nat :=
  ((streamFragments parseJsonStr buffer).map tok).sum

/-- From the spec (section 4.3, output framing): one replacement payload
per incoming SSE event of the chunk, each re-wrapped by the pipeline as
`data: <payload>` followed by a blank line. The converter acts per event
exactly as the pipeline invokes it on the first event. -/
def spec_converted_chunk (parseJsonStr : String → Option Json)
    (conv : ApiService → String → Json → Except String (Option String))
    (src : ApiService) (chunk : String) : String :=
  String.join (((strSplitOnStr chunk "\n\n").filterMap
    (fun event => (eventJson event).bind
      (fun json_str => (parseJsonStr json_str).bind
        (fun json_value =>
          match conv src (chunkModel json_value) json_value with
          | Except.ok (some payload) => some payload
          | _ => none)))).map
    (fun payload => "data: " ++ payload ++ "\n\n"))

/-- The `ApiKeyCache` bidirectional-consistency invariant from the spec
(section 3): every mapped hash refers to an existing channel, and each
channel's `api_keys` list holds exactly the hashes mapped to it. -/
def CacheInvariant (cache : ApiKeyCache) : Prop :=
  (∀ h cid, mapGet cache.key_to_channel h = some cid →
    mapContains cache.channel_configs cid = true) ∧
  (∀ cid config, mapGet cache.channel_configs cid = some config →
    ∀ h, h ∈ config.api_keys ↔ mapGet cache.key_to_channel h = some cid)

/-! Claim theorems. -/

/-- C8: whenever the `x-api-key` header is present, the Identifier
classifies the request as Anthropic and returns that header's value as the
API key, for every path, body and other headers. -/
theorem c8_x_api_key_forces_anthropic (path : String)
    (headers : List (String × String)) (body : Option Json) (v : String)
    (h : headerGet headers "x-api-key" = some v) :
    parse_request_via_path_and_header path headers body =
      { service := ApiService.anthropic, api_key := some v,
        model := extract_model_from_body body } := by
  unfold parse_request_via_path_and_header
  rw [h]

/-- Witness for C8 at a Google-looking path with extra headers. -/
theorem c8_witness :
    headerGet [("authorization", "Bearer zz"), ("x-api-key", "sk-1")]
        "x-api-key" = some "sk-1" ∧
    parse_request_via_path_and_header "/v1beta/models/gemini-pro:generateContent"
        [("authorization", "Bearer zz"), ("x-api-key", "sk-1")] none =
      { service := ApiService.anthropic, api_key := some "sk-1",
        model := extract_model_from_body none } :=
  ⟨by decide, c8_x_api_key_forces_anthropic _ _ _ _ (by decide)⟩

/-- When none of the three key sources is present, the Identifier extracts
no API key, whatever branch it takes. -/
theorem identify_no_key (path : String) (headers : List (String × String))
    (body : Option Json)
    (h1 : headerGet headers "x-api-key" = none)
    (h2 : headerGet headers "x-goog-api-key" = none)
    (h3 : extract_bearer_token headers = none) :
    (parse_request_via_path_and_header path headers body).api_key = none := by
  unfold parse_request_via_path_and_header
  rw [h1, h2]
  split_ifs with hA hB hC
  · exact h3
  · exact h3
  · exact h3
  · cases hd : detect_service_by_headers headers <;> simp [h3]

/-- C3: a request from which the Identifier extracts no API key is answered
401, no upstream request is sent, and the rate limiter records nothing. -/
theorem c3_missing_api_key_401 (validUri : String → Bool) (tok : String → Nat)
    (convertReq : String → ApiService → ApiService → Option String)
    (fetchResult : Except String Nat) (cfg : RateLimitingConfig)
    (svc : ApiService) (hostAddr method path : String)
    (headers : List (String × String)) (body : Option Json) (rawBody : String)
    (upstreamStatus : Nat)
    (h1 : headerGet headers "x-api-key" = none)
    (h2 : headerGet headers "x-goog-api-key" = none)
    (h3 : extract_bearer_token headers = none) :
    (parse_request_via_path_and_header path headers body).api_key = none ∧
    runLifecycle validUri tok convertReq fetchResult cfg svc hostAddr method
        path headers body rawBody upstreamStatus =
      { status := 401, upstreamSent := none, recordCalls := 0 } := by
  have hk := identify_no_key path headers body h1 h2 h3
  refine ⟨hk, ?_⟩
  have hreq : runRequest validUri tok convertReq fetchResult cfg svc hostAddr
      method path headers body rawBody = Except.error 401 := by
    simp only [runRequest]
    rw [hk]
  unfold runLifecycle
  rw [hreq]

/-- Witness for C3: a bare POST with no credentials at all. -/
theorem c3_witness :
    headerGet [("user", "alice")] "x-api-key" = none ∧
    headerGet [("user", "alice")] "x-goog-api-key" = none ∧
    extract_bearer_token [("user", "alice")] = none ∧
    ((parse_request_via_path_and_header "/v1/chat/completions"
        [("user", "alice")] none).api_key = none ∧
      runLifecycle (fun _ => true) (fun _ => 0) (fun _ _ _ => none)
          (Except.ok 0) ⟨60, 100, "user"⟩
          ApiService.openai "api.openai.com" "POST" "/v1/chat/completions"
          [("user", "alice")] none "" 200 =
        { status := 401, upstreamSent := none, recordCalls := 0 }) :=
  ⟨by decide, by decide, by decide,
    c3_missing_api_key_401 (fun _ => true) (fun _ => 0) (fun _ _ _ => none)
      (Except.ok 0) ⟨60, 100, "user"⟩ ApiService.openai "api.openai.com"
      "POST" "/v1/chat/completions" [("user", "alice")] none "" 200
      (by decide) (by decide) (by decide)⟩

/-- An upstream dialect other than `unknown` always configures
successfully. -/
theorem configure_upstream_request_ok (validUri : String → Bool)
    (origUri api_key : String) (model : Option String) :
    ∀ svc, svc ≠ ApiService.unknown →
      ∃ p, configure_upstream_request validUri origUri api_key svc model =
        Except.ok p := by
  intro svc hsvc
  cases svc with
  | anthropic => exact ⟨_, rfl⟩
  | openai => exact ⟨_, rfl⟩
  | google =>
    cases model with
    | some m => exact ⟨_, rfl⟩
    | none => exact ⟨_, rfl⟩
  | unknown => exact absurd rfl hsvc

/-- C2: once a keyed request reaches the rate gate, a fetch value above
`max_prompt_tokens` fails it with 429 before anything is sent upstream and
without any `record` call, and a fetch backend error fails it with 502. -/
theorem c2_rate_gate (validUri : String → Bool) (tok : String → Nat)
    (convertReq : String → ApiService → ApiService → Option String)
    (cfg : RateLimitingConfig) (svc : ApiService)
    (hostAddr method path : String) (headers : List (String × String))
    (body : Option Json) (rawBody : String) (upstreamStatus : Nat)
    (k : String) (v : Nat) (e : String)
    (hkey : (parse_request_via_path_and_header path headers body).api_key =
      some k)
    (hsvc : svc ≠ ApiService.unknown)
    (hv : v > cfg.max_prompt_tokens) :
    runLifecycle validUri tok convertReq (Except.ok v) cfg svc hostAddr method
        path headers body rawBody upstreamStatus =
      { status := 429, upstreamSent := none, recordCalls := 0 } ∧
    runLifecycle validUri tok convertReq (Except.error e) cfg svc hostAddr
        method path headers body rawBody upstreamStatus =
      { status := 502, upstreamSent := none, recordCalls := 0 } := by
  obtain ⟨⟨authHeaders, uri⟩, hcfg⟩ :=
    configure_upstream_request_ok validUri path k
      (parse_request_via_path_and_header path headers body).model svc hsvc
  constructor
  · have hreq : runRequest validUri tok convertReq (Except.ok v) cfg svc
        hostAddr method path headers body rawBody = Except.error 429 := by
      simp only [runRequest, hkey, hcfg, check_rate_limit]
      simp [hv]
    unfold runLifecycle
    rw [hreq]
  · have hreq : runRequest validUri tok convertReq (Except.error e) cfg svc
        hostAddr method path headers body rawBody = Except.error 502 := by
      simp only [runRequest, hkey, hcfg, check_rate_limit]
    unfold runLifecycle
    rw [hreq]

/-- Witness for C2: fetch returns 101 against a limit of 100. -/
theorem c2_witness :
    ((parse_request_via_path_and_header "/v1/chat/completions"
        [("x-api-key", "sk-2")] none).api_key = some "sk-2") ∧
    ApiService.openai ≠ ApiService.unknown ∧
    (101 > (100 : Nat)) ∧
    (runLifecycle (fun _ => true) (fun _ => 0) (fun _ _ _ => none)
        (Except.ok 101) ⟨60, 100, "user"⟩
        ApiService.openai "api.openai.com" "POST" "/v1/chat/completions"
        [("x-api-key", "sk-2")] none "" 200 =
      { status := 429, upstreamSent := none, recordCalls := 0 } ∧
    runLifecycle (fun _ => true) (fun _ => 0) (fun _ _ _ => none)
        (Except.error "redis down") ⟨60, 100, "user"⟩
        ApiService.openai "api.openai.com" "POST" "/v1/chat/completions"
        [("x-api-key", "sk-2")] none "" 200 =
      { status := 502, upstreamSent := none, recordCalls := 0 }) :=
  ⟨by decide, by decide, by decide,
    c2_rate_gate (fun _ => true) (fun _ => 0) (fun _ _ _ => none)
      ⟨60, 100, "user"⟩ ApiService.openai "api.openai.com" "POST"
      "/v1/chat/completions" [("x-api-key", "sk-2")] none "" 200
      "sk-2" 101 "redis down" (by decide) (by decide) (by decide)⟩

/-- When source and target dialects agree, the streaming converter always
answers pass-through (`Ok(None)`) or an error, never a replacement. -/
theorem convert_streaming_response_same (parseJsonStr : String → Option Json)
    (conv : ApiService → String → Json → Except String (Option String))
    (svc : ApiService) (data : String) :
    convert_streaming_response parseJsonStr conv svc svc data =
        Except.ok none ∨
      ∃ e, convert_streaming_response parseJsonStr conv svc svc data =
        Except.error e := by
  unfold convert_streaming_response
  rcases hx : extract_json_from_sse data with _ | json_str
  · simp [hx]
  · rcases hp : parseJsonStr json_str with _ | json_value <;> simp [hx, hp]

/-- C4: with equal source and target dialects the request body goes upstream
byte-identical, and every response chunk is forwarded byte-identical. -/
theorem c4_passthrough (validUri : String → Bool) (tok : String → Nat)
    (convertReq : String → ApiService → ApiService → Option String)
    (fetchResult : Except String Nat) (cfg : RateLimitingConfig)
    (svc : ApiService) (hostAddr method path : String)
    (headers : List (String × String)) (body : Option Json) (rawBody : String)
    (ur : UpstreamRequest) (gunzip : String → Option String)
    (parseJsonStr : String → Option Json)
    (conv : ApiService → String → Json → Except String (Option String))
    (contentEncoding : Option String) (chunk : Option String)
    (hsrc : (parse_request_via_path_and_header path headers body).service = svc)
    (hok : runRequest validUri tok convertReq fetchResult cfg svc hostAddr
      method path headers body rawBody = Except.ok ur) :
    ur.body = rawBody ∧
    response_body_filter_chunk gunzip parseJsonStr conv contentEncoding svc svc
      chunk = chunk := by
  constructor
  · simp only [runRequest] at hok
    rcases hak : (parse_request_via_path_and_header path headers body).api_key
      with _ | k
    · simp only [hak] at hok
      exact Except.noConfusion hok
    · simp only [hak] at hok
      rcases hcfg : configure_upstream_request validUri path k svc
          (parse_request_via_path_and_header path headers body).model
        with st | ⟨authHeaders, uri⟩
      · simp only [hcfg] at hok
        exact Except.noConfusion hok
      · simp only [hcfg] at hok
        rcases hrl : check_rate_limit fetchResult cfg with st | u
        · simp only [hrl] at hok
          exact Except.noConfusion hok
        · simp only [hrl] at hok
          by_cases hm : method = "POST"
          · rw [if_pos hm] at hok
            rcases hpr : parse_request tok body path with st | req
            · simp only [hpr] at hok
              exact Except.noConfusion hok
            · simp only [hpr, hsrc, eq_self_iff_true, if_true] at hok
              injection hok with h2
              rw [← h2]
          · rw [if_neg hm] at hok
            injection hok with h2
            rw [← h2]
  · unfold response_body_filter_chunk
    rcases hd : decode_body gunzip contentEncoding chunk with _ | data
    · simp only [hd]
    · simp only [hd]
      by_cases hs : is_streaming_response data
      · rw [if_pos hs]
        rcases convert_streaming_response_same parseJsonStr conv svc data
          with h | ⟨e, h⟩ <;> rw [h]
      · rw [if_neg hs]

/-- Witness for C4: an OpenAI client on an OpenAI channel. -/
theorem c4_witness :
    ((parse_request_via_path_and_header "/v1/chat/completions"
        [("authorization", "Bearer sk-3")]
        (some (Json.obj [("model", Json.str "gpt-4o")]))).service =
      ApiService.openai) ∧
    (runRequest (fun _ => true) (fun _ => 1) (fun _ _ _ => some "CONVERTED")
        (Except.ok 0) ⟨60, 100, "user"⟩ ApiService.openai "api.openai.com"
        "POST" "/v1/chat/completions" [("authorization", "Bearer sk-3")]
        (some (Json.obj [("model", Json.str "gpt-4o")])) "RAWBYTES" =
      Except.ok
        { headers := [("Authorization", "Bearer sk-3"),
            ("Host", "api.openai.com"), ("Content-Type", "application/json"),
            ("Accept-Encoding", "identity")],
          uri := "/v1/chat/completions", body := "RAWBYTES" }) ∧
    (({ headers := [("Authorization", "Bearer sk-3"),
          ("Host", "api.openai.com"), ("Content-Type", "application/json"),
          ("Accept-Encoding", "identity")],
        uri := "/v1/chat/completions",
        body := "RAWBYTES" } : UpstreamRequest).body = "RAWBYTES" ∧
      response_body_filter_chunk (fun _ => none) (fun _ => none)
        (fun _ _ _ => Except.ok (some "X")) none ApiService.openai
        ApiService.openai
        (some "data: \x7b\"choices\":[]\x7d\n\n") =
      some "data: \x7b\"choices\":[]\x7d\n\n") := by
  refine ⟨by decide, by rfl, ?_⟩
  exact c4_passthrough (fun _ => true) (fun _ => 1) (fun _ _ _ => some "CONVERTED")
    (Except.ok 0) ⟨60, 100, "user"⟩ ApiService.openai "api.openai.com"
    "POST" "/v1/chat/completions" [("authorization", "Bearer sk-3")]
    (some (Json.obj [("model", Json.str "gpt-4o")])) "RAWBYTES"
    { headers := [("Authorization", "Bearer sk-3"),
        ("Host", "api.openai.com"), ("Content-Type", "application/json"),
        ("Accept-Encoding", "identity")],
      uri := "/v1/chat/completions", body := "RAWBYTES" }
    (fun _ => none) (fun _ => none) (fun _ _ _ => Except.ok (some "X")) none
    (some "data: \x7b\"choices\":[]\x7d\n\n") (by decide) (by rfl)

/-- A successful pipeline run forwards exactly the headers and URI produced
by `configure_upstream_request` plus the fixed Host/Content-Type/identity
headers. -/
theorem runRequest_ok_fields (validUri : String → Bool) (tok : String → Nat)
    (convertReq : String → ApiService → ApiService → Option String)
    (fetchResult : Except String Nat) (cfg : RateLimitingConfig)
    (svc : ApiService) (hostAddr method path : String)
    (headers : List (String × String)) (body : Option Json) (rawBody : String)
    (k : String) (authHeaders : List (String × String)) (uri : String)
    (ur : UpstreamRequest)
    (hkey : (parse_request_via_path_and_header path headers body).api_key =
      some k)
    (hcfg : configure_upstream_request validUri path k svc
      (parse_request_via_path_and_header path headers body).model =
        Except.ok (authHeaders, uri))
    (hok : runRequest validUri tok convertReq fetchResult cfg svc hostAddr
      method path headers body rawBody = Except.ok ur) :
    ur.headers = authHeaders ++
      [("Host", hostAddr), ("Content-Type", "application/json"),
       ("Accept-Encoding", "identity")] ∧ ur.uri = uri := by
  simp only [runRequest, hkey, hcfg] at hok
  rcases hrl : check_rate_limit fetchResult cfg with st | u
  · simp only [hrl] at hok
    exact Except.noConfusion hok
  · simp only [hrl] at hok
    by_cases hm : method = "POST"
    · rw [if_pos hm] at hok
      rcases hpr : parse_request tok body path with st | req
      · simp only [hpr] at hok
        exact Except.noConfusion hok
      · simp only [hpr] at hok
        by_cases hsv : (parse_request_via_path_and_header path headers
            body).service = svc
        · rw [if_pos hsv] at hok
          injection hok with h2
          rw [← h2]
          exact ⟨rfl, rfl⟩
        · rw [if_neg hsv] at hok
          rcases hcv : convertReq rawBody
              (parse_request_via_path_and_header path headers body).service svc
            with _ | conv2
          · simp only [hcv] at hok
            injection hok with h2
            rw [← h2]
            exact ⟨rfl, rfl⟩
          · simp only [hcv] at hok
            injection hok with h2
            rw [← h2]
            exact ⟨rfl, rfl⟩
    · rw [if_neg hm] at hok
      injection hok with h2
      rw [← h2]
      exact ⟨rfl, rfl⟩

/-- C9 counterexample: with no extracted model the Google branch of
`configure_upstream_request` leaves the client URI untouched instead of
rewriting it to the gemini-pro fallback URI the claim demands. -/
theorem c9_counterexample :
    configure_upstream_request (fun _ => true) "/orig/path" "gk"
        ApiService.google none =
      Except.ok ([("x-goog-api-key", "gk")], "/orig/path") ∧
    "/orig/path" ≠ "/v1beta/models/gemini-pro:generateContent" :=
  ⟨rfl, by decide⟩

/-- C9 amended: a request forwarded to a Google upstream carries
`x-goog-api-key` with the client's key; its URI is
`/v1beta/models/<model>:generateContent` when a model was extracted (the
gemini-pro fallback only replaces a formatted path that is not a valid URI),
and stays the client's original URI when no model was extracted. -/
theorem c9_google_upstream (validUri : String → Bool) (tok : String → Nat)
    (convertReq : String → ApiService → ApiService → Option String)
    (fetchResult : Except String Nat) (cfg : RateLimitingConfig)
    (hostAddr method path : String) (headers : List (String × String))
    (body : Option Json) (rawBody : String) (k : String) (ur : UpstreamRequest)
    (hkey : (parse_request_via_path_and_header path headers body).api_key =
      some k)
    (hok : runRequest validUri tok convertReq fetchResult cfg
      ApiService.google hostAddr method path headers body rawBody =
        Except.ok ur) :
    ("x-goog-api-key", k) ∈ ur.headers ∧
    ur.uri = (match (parse_request_via_path_and_header path headers
        body).model with
      | some m =>
        if validUri ("/v1beta/models/" ++ m ++ ":generateContent") then
          "/v1beta/models/" ++ m ++ ":generateContent"
        else "/v1beta/models/gemini-pro:generateContent"
      | none => path) := by
  rcases hm2 : (parse_request_via_path_and_header path headers body).model
    with _ | m
  · have hcfg : configure_upstream_request validUri path k ApiService.google
        (parse_request_via_path_and_header path headers body).model =
        Except.ok ([("x-goog-api-key", k)], path) := by
      rw [hm2]; rfl
    obtain ⟨hh, hu⟩ := runRequest_ok_fields validUri tok convertReq fetchResult
      cfg ApiService.google hostAddr method path headers body rawBody k
      [("x-goog-api-key", k)] path ur hkey hcfg hok
    constructor
    · rw [hh]; simp
    · simp only [hm2]; exact hu
  · have hcfg : configure_upstream_request validUri path k ApiService.google
        (parse_request_via_path_and_header path headers body).model =
        Except.ok ([("x-goog-api-key", k)],
          if validUri ("/v1beta/models/" ++ m ++ ":generateContent") then
            "/v1beta/models/" ++ m ++ ":generateContent"
          else "/v1beta/models/gemini-pro:generateContent") := by
      rw [hm2]; rfl
    obtain ⟨hh, hu⟩ := runRequest_ok_fields validUri tok convertReq fetchResult
      cfg ApiService.google hostAddr method path headers body rawBody k
      [("x-goog-api-key", k)] _ ur hkey hcfg hok
    constructor
    · rw [hh]; simp
    · simp only [hm2]; exact hu

/-- Witness for the amended C9: a Gemini request with a model in the body. -/
theorem c9_witness :
    ((parse_request_via_path_and_header "/p" [("x-goog-api-key", "gk")]
        (some (Json.obj [("model", Json.str "gemini-1.5-flash")]))).api_key =
      some "gk") ∧
    (runRequest (fun _ => true) (fun _ => 0) (fun _ _ _ => none) (Except.ok 0)
        ⟨60, 100, "user"⟩ ApiService.google "g.example" "POST" "/p"
        [("x-goog-api-key", "gk")]
        (some (Json.obj [("model", Json.str "gemini-1.5-flash")])) "RAW" =
      Except.ok
        { headers := [("x-goog-api-key", "gk"), ("Host", "g.example"),
            ("Content-Type", "application/json"),
            ("Accept-Encoding", "identity")],
          uri := "/v1beta/models/gemini-1.5-flash:generateContent",
          body := "RAW" }) ∧
    (("x-goog-api-key", "gk") ∈
      ({ headers := [("x-goog-api-key", "gk"), ("Host", "g.example"),
            ("Content-Type", "application/json"),
            ("Accept-Encoding", "identity")],
          uri := "/v1beta/models/gemini-1.5-flash:generateContent",
          body := "RAW" } : UpstreamRequest).headers ∧
      ({ headers := [("x-goog-api-key", "gk"), ("Host", "g.example"),
            ("Content-Type", "application/json"),
            ("Accept-Encoding", "identity")],
          uri := "/v1beta/models/gemini-1.5-flash:generateContent",
          body := "RAW" } : UpstreamRequest).uri =
        (match (parse_request_via_path_and_header "/p" [("x-goog-api-key", "gk")]
            (some (Json.obj [("model", Json.str "gemini-1.5-flash")]))).model with
          | some m =>
            if (fun _ => true) ("/v1beta/models/" ++ m ++ ":generateContent") then
              "/v1beta/models/" ++ m ++ ":generateContent"
            else "/v1beta/models/gemini-pro:generateContent"
          | none => "/p")) := by
  refine ⟨by decide, by rfl, ?_⟩
  exact c9_google_upstream (fun _ => true) (fun _ => 0) (fun _ _ _ => none)
    (Except.ok 0) ⟨60, 100, "user"⟩ "g.example" "POST" "/p"
    [("x-goog-api-key", "gk")]
    (some (Json.obj [("model", Json.str "gemini-1.5-flash")])) "RAW" "gk"
    { headers := [("x-goog-api-key", "gk"), ("Host", "g.example"),
        ("Content-Type", "application/json"), ("Accept-Encoding", "identity")],
      uri := "/v1beta/models/gemini-1.5-flash:generateContent", body := "RAW" }
    (by decide) (by rfl)

/-- A JSON body without a top-level string `model` field fails the
`OpenAIRequestBody` deserialization. -/
theorem jsonToOpenAIRequestBody_none_of_no_model (j : Json)
    (hmodel : (jsonGet j "model").bind jsonAsStr = none) :
    jsonToOpenAIRequestBody j = none := by
  cases j with
  | obj fields => simp [jsonToOpenAIRequestBody, hmodel]
  | null => rfl
  | bool b => rfl
  | num n => rfl
  | str s => rfl
  | arr xs => rfl

/-- C10: a POST body that is well-formed JSON but lacks a top-level string
`model` field fails `parse_request`, and the pipeline rejects the request
with HTTP 400 before it is sent upstream. -/
theorem c10_missing_model_400 (validUri : String → Bool) (tok : String → Nat)
    (convertReq : String → ApiService → ApiService → Option String)
    (cfg : RateLimitingConfig) (svc : ApiService) (hostAddr path : String)
    (headers : List (String × String)) (j : Json) (rawBody : String)
    (upstreamStatus : Nat) (v : Nat) (k : String)
    (hmodel : (jsonGet j "model").bind jsonAsStr = none)
    (hkey : (parse_request_via_path_and_header path headers (some j)).api_key =
      some k)
    (hsvc : svc ≠ ApiService.unknown)
    (hv : ¬ v > cfg.max_prompt_tokens) :
    parse_request tok (some j) path = Except.error 400 ∧
    runLifecycle validUri tok convertReq (Except.ok v) cfg svc hostAddr "POST"
        path headers (some j) rawBody upstreamStatus =
      { status := 400, upstreamSent := none, recordCalls := 0 } := by
  have hpr : parse_request tok (some j) path = Except.error 400 := by
    simp [parse_request, jsonToOpenAIRequestBody_none_of_no_model j hmodel]
  refine ⟨hpr, ?_⟩
  obtain ⟨⟨authHeaders, uri⟩, hcfg⟩ :=
    configure_upstream_request_ok validUri path k
      (parse_request_via_path_and_header path headers (some j)).model svc hsvc
  have hrl : check_rate_limit (Except.ok v) cfg = Except.ok () := by
    simp [check_rate_limit, hv]
  have hreq : runRequest validUri tok convertReq (Except.ok v) cfg svc hostAddr
      "POST" path headers (some j) rawBody = Except.error 400 := by
    simp only [runRequest, hkey, hcfg, hrl]
    simp [hpr]
  unfold runLifecycle
  rw [hreq]

/-- Witness for C10: JSON object body whose `model` field is a number. -/
theorem c10_witness :
    ((jsonGet (Json.obj [("model", Json.num 5)]) "model").bind jsonAsStr =
      none) ∧
    ((parse_request_via_path_and_header "/v1/chat/completions"
        [("x-api-key", "ak")]
        (some (Json.obj [("model", Json.num 5)]))).api_key = some "ak") ∧
    ApiService.openai ≠ ApiService.unknown ∧
    (¬ (0 : Nat) > (100 : Nat)) ∧
    (parse_request (fun _ => 0) (some (Json.obj [("model", Json.num 5)]))
        "/v1/chat/completions" = Except.error 400 ∧
      runLifecycle (fun _ => true) (fun _ => 0) (fun _ _ _ => none)
          (Except.ok 0) ⟨60, 100, "user"⟩ ApiService.openai "api.openai.com"
          "POST" "/v1/chat/completions" [("x-api-key", "ak")]
          (some (Json.obj [("model", Json.num 5)])) "RAW" 200 =
        { status := 400, upstreamSent := none, recordCalls := 0 }) := by
  refine ⟨by rfl, by decide, by decide, by decide, ?_⟩
  exact c10_missing_model_400 (fun _ => true) (fun _ => 0) (fun _ _ _ => none)
    ⟨60, 100, "user"⟩ ApiService.openai "api.openai.com"
    "/v1/chat/completions" [("x-api-key", "ak")] (Json.obj [("model", Json.num 5)])
    "RAW" 200 0 "ak" (by rfl) (by decide) (by decide) (by decide)

/-- C6: after `add_api_key_mapping(k, c)` succeeds, looking the key up finds
exactly the channel stored under id `c`, whose key list now holds `hash k`;
after `remove_api_key_mapping(k)` the lookup is `None` and `hash k` is gone
from that channel's key list. -/
theorem c6_key_map_consistency (hash : String → String) (cache : ApiKeyCache)
    (k c : String) (cache1 : ApiKeyCache)
    (hadd : add_api_key_mapping hash cache k c = some cache1) :
    find_channel_by_api_key hash cache1 k = mapGet cache1.channel_configs c ∧
    (mapGet cache1.channel_configs c).isSome = true ∧
    (match mapGet cache1.channel_configs c with
      | some cfg => hash k ∈ cfg.api_keys
      | none => False) ∧
    find_channel_by_api_key hash (remove_api_key_mapping hash cache1 k) k =
      none ∧
    (match mapGet (remove_api_key_mapping hash cache1 k).channel_configs c with
      | some cfg => hash k ∉ cfg.api_keys
      | none => False) := by
  simp only [add_api_key_mapping] at hadd
  by_cases hc : mapContains cache.channel_configs c = true
  case neg =>
    rw [if_neg hc] at hadd
    exact Option.noConfusion hadd
  rw [if_pos hc] at hadd
  injection hadd with h1
  subst h1
  simp only [mapContains] at hc
  obtain ⟨cfg0, hcfg0⟩ := Option.isSome_iff_exists.mp hc
  have hktc1 : mapGet (mapInsert cache.key_to_channel (hash k) c) (hash k) =
      some c := by
    rw [mapGet_insert]; simp
  have hcfg1 : mapGet (mapModify cache.channel_configs c
      (fun config =>
        if config.api_keys.contains (hash k) then config
        else { config with api_keys := config.api_keys ++ [hash k] })) c =
      some (if cfg0.api_keys.contains (hash k) then cfg0
        else { cfg0 with api_keys := cfg0.api_keys ++ [hash k] }) := by
    rw [mapGet_modify]
    simp [hcfg0]
  refine ⟨?_, ?_, ?_, ?_, ?_⟩
  · unfold find_channel_by_api_key
    dsimp only
    rw [hktc1]
    rfl
  · dsimp only
    rw [hcfg1]
    rfl
  · dsimp only
    rw [hcfg1]
    by_cases hmem : cfg0.api_keys.contains (hash k) = true
    · rw [if_pos hmem]
      dsimp only
      exact List.elem_iff.mp hmem
    · rw [if_neg hmem]
      dsimp only
      exact List.mem_append_right _ (List.mem_singleton.mpr rfl)
  · simp only [remove_api_key_mapping, hktc1]
    unfold find_channel_by_api_key
    dsimp only
    rw [mapGet_remove]
    simp
  · simp only [remove_api_key_mapping, hktc1]
    rw [mapGet_modify]
    simp only [eq_self_iff_true, if_true]
    rw [hcfg1]
    simp [List.mem_filter]

/-- Concrete peer, channel and cache states for the C6 witness. -/
def c6Peer : Peer := ⟨true, "api.openai.com", 443⟩

/-- Channel `c1` with a given key-hash list. -/
def c6Cfg (keys : List String) : ChannelConfig :=
  ⟨"c1", "primary", c6Peer, ApiService.openai, 1, true, keys⟩

/-- One-channel cache before the C6 mapping is added. -/
def c6Cache0 : ApiKeyCache := ⟨[], [("c1", c6Cfg [])], []⟩

/-- The same cache after `add_api_key_mapping("k9", "c1")`. -/
def c6Cache1 : ApiKeyCache := ⟨[("k9", "c1")], [("c1", c6Cfg ["k9"])], []⟩

/-- Witness for C6 on a one-channel cache with the identity as key hash. -/
theorem c6_witness :
    (add_api_key_mapping (fun s => s) c6Cache0 "k9" "c1" = some c6Cache1) ∧
    (find_channel_by_api_key (fun s => s) c6Cache1 "k9" =
        mapGet c6Cache1.channel_configs "c1" ∧
      (mapGet c6Cache1.channel_configs "c1").isSome = true ∧
      (match mapGet c6Cache1.channel_configs "c1" with
        | some cfg => ("k9" : String) ∈ cfg.api_keys
        | none => False) ∧
      find_channel_by_api_key (fun s => s)
        (remove_api_key_mapping (fun s => s) c6Cache1 "k9") "k9" = none ∧
      (match mapGet (remove_api_key_mapping (fun s => s) c6Cache1
          "k9").channel_configs "c1" with
        | some cfg => ("k9" : String) ∉ cfg.api_keys
        | none => False)) := by
  refine ⟨by decide, ?_⟩
  exact c6_key_map_consistency (fun s => s) c6Cache0 "k9" "c1" c6Cache1
    (by decide)

/-- Folding key-hash inserts that all point at one channel id. -/
theorem mapGet_foldl_insert (keys : List String)
    (m : List (String × String)) (cid h : String) :
    mapGet (keys.foldl (fun acc kk => mapInsert acc kk cid) m) h =
      if h ∈ keys then some cid else mapGet m h := by
  induction keys generalizing m with
  | nil => simp
  | cons a as ih =>
    simp only [List.foldl_cons, ih, mapGet_insert]
    by_cases h1 : h ∈ as
    · simp [h1]
    · by_cases h2 : h = a <;> simp [h1, h2]

/-- Modifying one channel in a way that keeps its `api_keys` list intact
preserves the cache invariant. -/
theorem modify_keys_intact_invariant (cache : ApiKeyCache) (cid : String)
    (f : ChannelConfig → ChannelConfig)
    (hpres : ∀ cfg, (f cfg).api_keys = cfg.api_keys)
    (hinv : CacheInvariant cache) :
    CacheInvariant
      { cache with channel_configs := mapModify cache.channel_configs cid f } := by
  obtain ⟨h1, h2⟩ := hinv
  constructor
  · intro h cid0 hg
    dsimp only at hg ⊢
    rw [mapContains_modify]
    exact h1 h cid0 hg
  · intro cid0 config hg h
    dsimp only at hg ⊢
    rw [mapGet_modify] at hg
    by_cases hc : cid0 = cid
    · rw [if_pos hc] at hg
      rcases hm : mapGet cache.channel_configs cid with _ | cfg0
      · rw [hm] at hg
        exact Option.noConfusion hg
      · rw [hm] at hg
        injection hg with h3
        rw [← h3, hpres cfg0]
        exact h2 cid0 cfg0 (by rw [hc]; exact hm) h
    · rw [if_neg hc] at hg
      exact h2 cid0 config hg h

/-- `set_channel_enabled` preserves the cache invariant. -/
theorem set_channel_enabled_invariant (cache : ApiKeyCache) (cid : String)
    (b : Bool) (cache2 : ApiKeyCache) (hinv : CacheInvariant cache)
    (hen : set_channel_enabled cache cid b = some cache2) :
    CacheInvariant cache2 := by
  simp only [set_channel_enabled] at hen
  by_cases hc : mapContains cache.channel_configs cid = true
  · rw [if_pos hc] at hen
    injection hen with h1
    rw [← h1]
    exact modify_keys_intact_invariant cache cid _ (fun cfg => rfl) hinv
  · rw [if_neg hc] at hen
    exact Option.noConfusion hen

/-- `update_channel_weight` preserves the cache invariant. -/
theorem update_channel_weight_invariant (cache : ApiKeyCache) (cid : String)
    (w : Nat) (cache3 : ApiKeyCache) (hinv : CacheInvariant cache)
    (hwt : update_channel_weight cache cid w = some cache3) :
    CacheInvariant cache3 := by
  simp only [update_channel_weight] at hwt
  by_cases hc : mapContains cache.channel_configs cid = true
  · rw [if_pos hc] at hwt
    injection hwt with h1
    rw [← h1]
    exact modify_keys_intact_invariant cache cid _ (fun cfg => rfl) hinv
  · rw [if_neg hc] at hwt
    exact Option.noConfusion hwt

/-- `remove_api_key_mapping` always preserves the cache invariant. -/
theorem remove_api_key_mapping_invariant (hash : String → String)
    (cache : ApiKeyCache) (k : String) (hinv : CacheInvariant cache) :
    CacheInvariant (remove_api_key_mapping hash cache k) := by
  obtain ⟨h1, h2⟩ := hinv
  rcases hm : mapGet cache.key_to_channel (hash k) with _ | cid0
  · have heq : remove_api_key_mapping hash cache k = cache := by
      simp only [remove_api_key_mapping, hm]
    rw [heq]
    exact ⟨h1, h2⟩
  · have heq : remove_api_key_mapping hash cache k =
        ⟨mapRemove cache.key_to_channel (hash k),
          mapModify cache.channel_configs cid0
            (fun config =>
              { config with
                api_keys := config.api_keys.filter (fun kk => kk != hash k) }),
          cache.routing_rules⟩ := by
      simp only [remove_api_key_mapping, hm]
    rw [heq]
    constructor
    · intro hx cid2 hg
      dsimp only at hg ⊢
      rw [mapGet_remove] at hg
      by_cases hxh : hx = hash k
      · rw [if_pos hxh] at hg
        exact Option.noConfusion hg
      · rw [if_neg hxh] at hg
        rw [mapContains_modify]
        exact h1 hx cid2 hg
    · intro cid2 config hg hx
      dsimp only at hg ⊢
      rw [mapGet_modify] at hg
      by_cases hc : cid2 = cid0
      · rw [if_pos hc] at hg
        rcases hm2 : mapGet cache.channel_configs cid0 with _ | cfg0
        · rw [hm2] at hg
          exact Option.noConfusion hg
        · rw [hm2] at hg
          injection hg with h3
          rw [← h3]
          dsimp only
          rw [mapGet_remove]
          by_cases hxh : hx = hash k
          · rw [if_pos hxh]
            simp only [List.mem_filter]
            constructor
            · intro hmem
              exact absurd hmem.2 (by simp [hxh])
            · intro hfalse
              exact Option.noConfusion hfalse
          · rw [if_neg hxh]
            simp only [List.mem_filter, bne_iff_ne, ne_eq, hxh,
              not_false_eq_true, and_true]
            rw [hc]
            exact h2 cid0 cfg0 hm2 hx
      · rw [if_neg hc] at hg
        rw [mapGet_remove]
        by_cases hxh : hx = hash k
        · rw [if_pos hxh]
          constructor
          · intro hmem
            have := (h2 cid2 config hg hx).mp hmem
            rw [hxh, hm] at this
            injection this with h4
            exact absurd h4.symm hc
          · intro hfalse
            exact Option.noConfusion hfalse
        · rw [if_neg hxh]
          exact h2 cid2 config hg hx

/-- `add_api_key_mapping` preserves the invariant provided the key hash is
not already mapped to a different channel. -/
theorem add_api_key_mapping_invariant (hash : String → String)
    (cache : ApiKeyCache) (k cid : String) (cache1 : ApiKeyCache)
    (hinv : CacheInvariant cache)
    (hkey_ok : ∀ cid0, mapGet cache.key_to_channel (hash k) = some cid0 →
      cid0 = cid)
    (hadd : add_api_key_mapping hash cache k cid = some cache1) :
    CacheInvariant cache1 := by
  obtain ⟨h1, h2⟩ := hinv
  simp only [add_api_key_mapping] at hadd
  by_cases hc : mapContains cache.channel_configs cid = true
  case neg =>
    rw [if_neg hc] at hadd
    exact Option.noConfusion hadd
  rw [if_pos hc] at hadd
  injection hadd with hq
  rw [← hq]
  have hc2 := hc
  simp only [mapContains] at hc2
  obtain ⟨cfg0, hcfg0⟩ := Option.isSome_iff_exists.mp hc2
  constructor
  · intro hx cid2 hg
    dsimp only at hg ⊢
    rw [mapGet_insert] at hg
    rw [mapContains_modify]
    by_cases hxh : hx = hash k
    · rw [if_pos hxh] at hg
      injection hg with h3
      rw [← h3]
      exact hc
    · rw [if_neg hxh] at hg
      exact h1 hx cid2 hg
  · intro cid2 config hg hx
    dsimp only at hg ⊢
    rw [mapGet_modify] at hg
    rw [mapGet_insert]
    by_cases hcc : cid2 = cid
    · rw [if_pos hcc] at hg
      rw [hcfg0] at hg
      injection hg with h3
      rw [← h3]
      dsimp only
      rw [hcc]
      by_cases hxh : hx = hash k
      · rw [if_pos hxh]
        constructor
        · intro _
          rfl
        · intro _
          by_cases hmem : cfg0.api_keys.contains (hash k) = true
          · rw [if_pos hmem]
            rw [hxh]
            exact List.elem_iff.mp hmem
          · rw [if_neg hmem]
            dsimp only
            rw [hxh]
            exact List.mem_append_right _ (List.mem_singleton.mpr rfl)
      · rw [if_neg hxh]
        have hbase : hx ∈ cfg0.api_keys ↔
            mapGet cache.key_to_channel hx = some cid :=
          h2 cid cfg0 hcfg0 hx
        by_cases hmem : cfg0.api_keys.contains (hash k) = true
        · rw [if_pos hmem]
          exact hbase
        · rw [if_neg hmem]
          dsimp only
          rw [List.mem_append, List.mem_singleton]
          constructor
          · intro hor
            rcases hor with hin | heq
            · exact hbase.mp hin
            · exact absurd heq hxh
          · intro hget
            exact Or.inl (hbase.mpr hget)
    · rw [if_neg hcc] at hg
      by_cases hxh : hx = hash k
      · rw [if_pos hxh]
        constructor
        · intro hmem
          have hget := (h2 cid2 config hg hx).mp hmem
          rw [hxh] at hget
          exact absurd (hkey_ok cid2 hget) hcc
        · intro hsome
          injection hsome with h4
          exact absurd h4.symm hcc
      · rw [if_neg hxh]
        exact h2 cid2 config hg hx

/-- `add_channel_config` preserves the invariant provided the channel id is
new and none of its key hashes is mapped yet. -/
theorem add_channel_config_invariant (cache : ApiKeyCache)
    (cfgNew : ChannelConfig) (hinv : CacheInvariant cache)
    (hfresh_id : mapContains cache.channel_configs cfgNew.channel_id = false)
    (hfresh_keys : ∀ h ∈ cfgNew.api_keys,
      mapGet cache.key_to_channel h = none) :
    CacheInvariant (add_channel_config cache cfgNew) := by
  obtain ⟨h1, h2⟩ := hinv
  unfold add_channel_config
  constructor
  · intro hx cid2 hg
    dsimp only at hg ⊢
    rw [mapGet_foldl_insert] at hg
    rw [mapContains_insert]
    by_cases hxk : hx ∈ cfgNew.api_keys
    · rw [if_pos hxk] at hg
      injection hg with h3
      rw [← h3]
      simp
    · rw [if_neg hxk] at hg
      rw [h1 hx cid2 hg]
      simp
  · intro cid2 config hg hx
    dsimp only at hg ⊢
    rw [mapGet_insert] at hg
    rw [mapGet_foldl_insert]
    by_cases hcc : cid2 = cfgNew.channel_id
    · rw [if_pos hcc] at hg
      injection hg with h3
      rw [← h3]
      by_cases hxk : hx ∈ cfgNew.api_keys
      · rw [if_pos hxk]
        rw [hcc]
        exact ⟨fun _ => rfl, fun _ => hxk⟩
      · rw [if_neg hxk]
        constructor
        · intro hmem
          exact absurd hmem hxk
        · intro hget
          rw [hcc] at hget
          have := h1 hx cfgNew.channel_id hget
          rw [this] at hfresh_id
          exact absurd hfresh_id (by simp)
    · rw [if_neg hcc] at hg
      by_cases hxk : hx ∈ cfgNew.api_keys
      · rw [if_pos hxk]
        constructor
        · intro hmem
          have hget := (h2 cid2 config hg hx).mp hmem
          rw [hfresh_keys hx hxk] at hget
          exact Option.noConfusion hget
        · intro hsome
          injection hsome with h4
          exact absurd h4.symm hcc
      · rw [if_neg hxk]
        exact h2 cid2 config hg hx

/-- C7 amended: `set_channel_enabled`, `update_channel_weight` and
`remove_api_key_mapping` preserve the bidirectional cache invariant
unconditionally; `add_api_key_mapping` preserves it provided the key's hash
is not already mapped to a different channel; `add_channel_config` preserves
it provided its channel id is new and none of its key hashes is mapped
yet. -/
theorem c7_invariant_preservation (hash : String → String)
    (cache : ApiKeyCache) (cfgNew : ChannelConfig) (k cid : String) (b : Bool)
    (w : Nat) (cache1 cache2 cache3 : ApiKeyCache)
    (hinv : CacheInvariant cache)
    (hfresh_id : mapContains cache.channel_configs cfgNew.channel_id = false)
    (hfresh_keys : ∀ h ∈ cfgNew.api_keys,
      mapGet cache.key_to_channel h = none)
    (hkey_ok : ∀ cid0, mapGet cache.key_to_channel (hash k) = some cid0 →
      cid0 = cid)
    (hadd : add_api_key_mapping hash cache k cid = some cache1)
    (hen : set_channel_enabled cache cid b = some cache2)
    (hwt : update_channel_weight cache cid w = some cache3) :
    CacheInvariant (add_channel_config cache cfgNew) ∧
    CacheInvariant cache1 ∧
    CacheInvariant cache2 ∧
    CacheInvariant cache3 ∧
    CacheInvariant (remove_api_key_mapping hash cache k) :=
  ⟨add_channel_config_invariant cache cfgNew hinv hfresh_id hfresh_keys,
    add_api_key_mapping_invariant hash cache k cid cache1 hinv hkey_ok hadd,
    set_channel_enabled_invariant cache cid b cache2 hinv hen,
    update_channel_weight_invariant cache cid w cache3 hinv hwt,
    remove_api_key_mapping_invariant hash cache k hinv⟩

/-- Channel `A` owning key hash `h1`, for the C7 counterexample. -/
def c7CfgA : ChannelConfig := ⟨"A", "a", c6Peer, ApiService.openai, 1, true, ["h1"]⟩

/-- Channel `B` with no keys, for the C7 counterexample. -/
def c7CfgB : ChannelConfig := ⟨"B", "b", c6Peer, ApiService.anthropic, 1, true, []⟩

/-- A consistent two-channel cache where `h1` belongs to channel `A`. -/
def c7Cache0 : ApiKeyCache := ⟨[("h1", "A")], [("A", c7CfgA), ("B", c7CfgB)], []⟩

/-- Re-registration of channel `B` claiming key hash `h1`. -/
def c7CfgB2 : ChannelConfig :=
  ⟨"B", "b", c6Peer, ApiService.anthropic, 1, true, ["h1"]⟩

/-- The cache produced by `add_api_key_mapping("h1", "B")` on `c7Cache0`
(with the identity as hash): `h1` now maps to `B` but stays in `A`'s list. -/
def c7Cache1 : ApiKeyCache :=
  ⟨[("h1", "B")], [("A", c7CfgA), ("B", c7CfgB2)], []⟩

/-- The invariant holds on the concrete two-channel cache `c7Cache0`. -/
theorem c7Cache0_invariant : CacheInvariant c7Cache0 := by
  constructor
  · intro h cid hg
    simp only [c7Cache0, mapGet] at hg
    by_cases hh : "h1" = h
    · rw [if_pos hh] at hg
      injection hg with h2
      rw [← h2]
      decide
    · rw [if_neg hh] at hg
      exact Option.noConfusion hg
  · intro cid config hg h
    simp only [c7Cache0, mapGet] at hg
    by_cases hA : "A" = cid
    · rw [if_pos hA] at hg
      injection hg with h2
      rw [← h2, ← hA]
      rcases eq_or_ne h "h1" with hh | hh
      · subst hh
        simp [c7CfgA, mapGet]
      · have hh2 : ¬ ("h1" = h) := fun e => hh e.symm
        simp [c7CfgA, mapGet, hh, hh2]
    · rw [if_neg hA] at hg
      by_cases hB : "B" = cid
      · rw [if_pos hB] at hg
        injection hg with h2
        rw [← h2, ← hB]
        rcases eq_or_ne h "h1" with hh | hh
        · subst hh
          simp [c7CfgB, mapGet]
        · have hh2 : ¬ ("h1" = h) := fun e => hh e.symm
          simp [c7CfgB, mapGet, hh2]
      · rw [if_neg hB] at hg
        exact Option.noConfusion hg

/-- C7 counterexample: on the consistent cache `c7Cache0`, re-registering
channel `B` with `add_channel_config` claiming `h1`, or remapping `h1` to
`B` with `add_api_key_mapping`, leaves `h1` inside channel `A`'s key list
while the key map points it at `B`: the bidirectional invariant breaks. -/
theorem c7_counterexample :
    CacheInvariant c7Cache0 ∧
    ¬ CacheInvariant (add_channel_config c7Cache0 c7CfgB2) ∧
    add_api_key_mapping (fun s => s) c7Cache0 "h1" "B" = some c7Cache1 ∧
    ¬ CacheInvariant c7Cache1 := by
  refine ⟨c7Cache0_invariant, ?_, by decide, ?_⟩
  · intro hinv
    have hbad := (hinv.2 "A" c7CfgA (by decide) "h1").mp (by decide)
    exact absurd hbad (by decide)
  · intro hinv
    have hbad := (hinv.2 "A" c7CfgA (by decide) "h1").mp (by decide)
    exact absurd hbad (by decide)

/-- Fresh channel used by the C7 witness. -/
def c7CfgC2 : ChannelConfig :=
  ⟨"c2", "secondary", c6Peer, ApiService.anthropic, 2, true, ["k2"]⟩

/-- Witness cache for C7: the empty-keyed one-channel cache `c6Cache0`. -/
theorem c7_witness :
    CacheInvariant c6Cache0 ∧
    mapContains c6Cache0.channel_configs c7CfgC2.channel_id = false ∧
    (∀ h ∈ c7CfgC2.api_keys, mapGet c6Cache0.key_to_channel h = none) ∧
    (∀ cid0, mapGet c6Cache0.key_to_channel
      ((fun s => s) "k9") = some cid0 → cid0 = "c1") ∧
    add_api_key_mapping (fun s => s) c6Cache0 "k9" "c1" = some c6Cache1 ∧
    set_channel_enabled c6Cache0 "c1" false =
      some ⟨[], [("c1", ⟨"c1", "primary", c6Peer, ApiService.openai, 1, false,
        []⟩)], []⟩ ∧
    update_channel_weight c6Cache0 "c1" 7 =
      some ⟨[], [("c1", ⟨"c1", "primary", c6Peer, ApiService.openai, 7, true,
        []⟩)], []⟩ ∧
    (CacheInvariant (add_channel_config c6Cache0 c7CfgC2) ∧
      CacheInvariant c6Cache1 ∧
      CacheInvariant ⟨[], [("c1", ⟨"c1", "primary", c6Peer,
        ApiService.openai, 1, false, []⟩)], []⟩ ∧
      CacheInvariant ⟨[], [("c1", ⟨"c1", "primary", c6Peer,
        ApiService.openai, 7, true, []⟩)], []⟩ ∧
      CacheInvariant (remove_api_key_mapping (fun s => s) c6Cache0 "k9")) := by
  have hinv : CacheInvariant c6Cache0 := by
    constructor
    · intro h cid hg
      simp [c6Cache0, mapGet] at hg
    · intro cid config hg h
      simp only [c6Cache0, mapGet] at hg
      by_cases hc : "c1" = cid
      · rw [if_pos hc] at hg
        injection hg with h2
        rw [← h2]
        simp [c6Cfg, mapGet]
      · rw [if_neg hc] at hg
        exact Option.noConfusion hg
  refine ⟨hinv, by decide, by decide, by decide, by decide, by decide,
    by decide, ?_⟩
  exact c7_invariant_preservation (fun s => s) c6Cache0 c7CfgC2 "k9" "c1"
    false 7 c6Cache1
    ⟨[], [("c1", ⟨"c1", "primary", c6Peer, ApiService.openai, 1, false, []⟩)],
      []⟩
    ⟨[], [("c1", ⟨"c1", "primary", c6Peer, ApiService.openai, 7, true, []⟩)],
      []⟩
    hinv (by decide) (by decide) (by decide) (by decide) (by decide)
    (by decide)

/-- The second component of the accumulating fold of
`parse_streaming_response` is the sum of the per-fragment token counts. -/
theorem foldl_concat_count (tok : String → Nat) (l : List String)
    (acc : String × Nat) :
    (l.foldl (fun acc content => (acc.1 ++ content, acc.2 + tok content))
      acc).2 = acc.2 + (l.map tok).sum := by
  induction l generalizing acc with
  | nil => simp
  | cons a as ih => simp [ih, Nat.add_assoc]

/-- `parse_streaming_response` computes the per-fragment token sum. -/
theorem parse_streaming_response_eq_summed (tok : String → Nat)
    (parseJsonStr : String → Option Json) (buffer : String) :
    parse_streaming_response tok parseJsonStr buffer =
      spec_completion_tokens_summed tok parseJsonStr buffer := by
  unfold parse_streaming_response spec_completion_tokens_summed streamFragments
  rw [foldl_concat_count]
  simp

/-- C1 amended: at end-of-stream the recorded usage of a streaming request
is the prompt count precomputed at request time together with the sum over
the extracted text fragments of the tokenizer applied to each fragment
separately (not the tokenizer applied once to their concatenation). -/
theorem c1_streaming_accounting (tok : String → Nat)
    (parseJsonStr : String → Option Json) (req : OpenAIRequest)
    (buffer : String) (hstream : req.request_type = RequestType.stream) :
    finalize_usage_statistics tok parseJsonStr req buffer =
      { prompt_tokens := req.prompt_tokens,
        completion_tokens :=
          spec_completion_tokens_summed tok parseJsonStr buffer } := by
  simp only [finalize_usage_statistics, hstream,
    parse_streaming_response_eq_summed]

/-- Tokenizer behaviour shared by BPE encoders such as `cl100k_base`: the
strings `a`, `b` and their concatenation `ab` each encode to a single
token, so per-fragment counts are not additive under concatenation. -/
def c1Tok : String → Nat := fun s =>
  if s = "ab" then 1 else if s = "a" then 1 else if s = "b" then 1 else 0

/-- One SSE line payload carrying the text fragment `a`. -/
def c1LineA : String := "\x7b\"choices\":[\x7b\"text\":\"a\"\x7d]\x7d"

/-- One SSE line payload carrying the text fragment `b`. -/
def c1LineB : String := "\x7b\"choices\":[\x7b\"text\":\"b\"\x7d]\x7d"

/-- The serde parse result of those two payloads. -/
def c1Json (frag : String) : Json :=
  Json.obj [("choices", Json.arr [Json.obj [("text", Json.str frag)]])]

/-- serde_json text parsing restricted to the two concrete lines. -/
def c1Parse : String → Option Json := fun s =>
  if s = c1LineA then some (c1Json "a")
  else if s = c1LineB then some (c1Json "b") else none

/-- The accumulated streaming buffer holding both events. -/
def c1Buf : String := "data: " ++ c1LineA ++ "\n" ++ "data: " ++ c1LineB

/-- The accounting form of the streaming request being finalized. -/
def c1Req : OpenAIRequest := ⟨"gpt-4o", RequestType.stream, 5⟩

/-- C1 counterexample: on a stream of the fragments `a` and `b` the code
records 2 completion tokens (one per fragment), while tokenizing the
concatenation `ab` exactly once yields 1 token, so the recorded usage is not
the claimed pair. -/
theorem c1_counterexample :
    finalize_usage_statistics c1Tok c1Parse c1Req c1Buf =
      { prompt_tokens := 5, completion_tokens := 2 } ∧
    spec_completion_tokens_once c1Tok c1Parse c1Buf = 1 ∧
    finalize_usage_statistics c1Tok c1Parse c1Req c1Buf ≠
      { prompt_tokens := c1Req.prompt_tokens,
        completion_tokens := spec_completion_tokens_once c1Tok c1Parse c1Buf } := by
  refine ⟨by decide, by decide, ?_⟩
  intro h
  rw [show finalize_usage_statistics c1Tok c1Parse c1Req c1Buf =
    { prompt_tokens := 5, completion_tokens := 2 } from by decide] at h
  rw [show spec_completion_tokens_once c1Tok c1Parse c1Buf = 1 from by decide]
    at h
  exact absurd h (by decide)

/-- Witness for the amended C1 on the same concrete stream. -/
theorem c1_witness :
    c1Req.request_type = RequestType.stream ∧
    finalize_usage_statistics c1Tok c1Parse c1Req c1Buf =
      { prompt_tokens := c1Req.prompt_tokens,
        completion_tokens := spec_completion_tokens_summed c1Tok c1Parse c1Buf } :=
  ⟨by decide, c1_streaming_accounting c1Tok c1Parse c1Req c1Buf (by decide)⟩

/-- C5 amended: when a chunk is translated, the pipeline replaces the whole
outbound chunk with the converter's payload for the first `data:` event of
the chunk, as-is: no `data: ` prefix is re-applied, no blank-line framing is
appended, and later events in the same chunk get no payload of their own. -/
theorem c5_translated_chunk (gunzip : String → Option String)
    (parseJsonStr : String → Option Json)
    (conv : ApiService → String → Json → Except String (Option String))
    (contentEncoding : Option String) (src tgt : ApiService)
    (chunk : Option String) (data json_str : String) (json_value : Json)
    (s : String)
    (hd : decode_body gunzip contentEncoding chunk = some data)
    (hs : is_streaming_response data = true)
    (hx : extract_json_from_sse data = some json_str)
    (hp : parseJsonStr json_str = some json_value)
    (hne : src ≠ tgt)
    (hsrc3 : src = ApiService.anthropic ∨ src = ApiService.google ∨
      src = ApiService.openai)
    (hconv : conv src (chunkModel json_value) json_value =
      Except.ok (some s)) :
    response_body_filter_chunk gunzip parseJsonStr conv contentEncoding src
      tgt chunk = some s := by
  unfold response_body_filter_chunk
  simp only [hd]
  rw [if_pos hs]
  have hcsr : convert_streaming_response parseJsonStr conv src tgt data =
      Except.ok (some s) := by
    unfold convert_streaming_response
    simp only [hx, hp]
    rw [if_neg hne]
    rcases hsrc3 with h | h | h <;> subst h <;> exact hconv
  rw [hcsr]

/-- First SSE event payload of the C5 chunk. -/
def c5Str1 : String := "\x7b\"a\":1\x7d"

/-- Second SSE event payload of the C5 chunk. -/
def c5Str2 : String := "\x7b\"b\":2\x7d"

/-- serde parse results of the two payloads. -/
def c5Parse : String → Option Json := fun s =>
  if s = c5Str1 then some (Json.obj [("a", Json.num 1)])
  else if s = c5Str2 then some (Json.obj [("b", Json.num 2)]) else none

/-- A converter that replaces every event with the payload `P`. -/
def c5Conv : ApiService → String → Json → Except String (Option String) :=
  fun _ _ _ => Except.ok (some "P")

/-- An upstream chunk carrying two complete SSE events. -/
def c5Chunk : String :=
  "data: " ++ c5Str1 ++ "\n\n" ++ "data: " ++ c5Str2 ++ "\n\n"

/-- C5 counterexample: for a two-event chunk the pipeline emits the bare
payload of the first event only, not one re-wrapped `data: <payload>` plus
blank line per incoming event as the claim requires. -/
theorem c5_counterexample :
    response_body_filter_chunk (fun _ => none) c5Parse c5Conv none
      ApiService.anthropic ApiService.openai (some c5Chunk) = some "P" ∧
    spec_converted_chunk c5Parse c5Conv ApiService.anthropic c5Chunk =
      "data: P\n\ndata: P\n\n" ∧
    response_body_filter_chunk (fun _ => none) c5Parse c5Conv none
      ApiService.anthropic ApiService.openai (some c5Chunk) ≠
    some (spec_converted_chunk c5Parse c5Conv ApiService.anthropic c5Chunk) := by
  refine ⟨by decide, by decide, ?_⟩
  intro h
  rw [show response_body_filter_chunk (fun _ => none) c5Parse c5Conv none
    ApiService.anthropic ApiService.openai (some c5Chunk) = some "P" from
    by decide] at h
  rw [show spec_converted_chunk c5Parse c5Conv ApiService.anthropic c5Chunk =
    "data: P\n\ndata: P\n\n" from by decide] at h
  exact absurd h (by decide)

/-- Witness for the amended C5 on the two-event chunk. -/
theorem c5_witness :
    decode_body (fun _ => none) none (some c5Chunk) = some c5Chunk ∧
    is_streaming_response c5Chunk = true ∧
    extract_json_from_sse c5Chunk = some c5Str1 ∧
    c5Parse c5Str1 = some (Json.obj [("a", Json.num 1)]) ∧
    ApiService.anthropic ≠ ApiService.openai ∧
    (ApiService.anthropic = ApiService.anthropic ∨
      ApiService.anthropic = ApiService.google ∨
      ApiService.anthropic = ApiService.openai) ∧
    c5Conv ApiService.anthropic
      (chunkModel (Json.obj [("a", Json.num 1)]))
      (Json.obj [("a", Json.num 1)]) = Except.ok (some "P") ∧
    response_body_filter_chunk (fun _ => none) c5Parse c5Conv none
      ApiService.anthropic ApiService.openai (some c5Chunk) = some "P" := by
  refine ⟨by rfl, by decide, by decide, by rfl, by decide, by decide,
    by rfl, ?_⟩
  exact c5_translated_chunk (fun _ => none) c5Parse c5Conv none
    ApiService.anthropic ApiService.openai (some c5Chunk) c5Chunk c5Str1
    (Json.obj [("a", Json.num 1)]) "P" (by rfl) (by decide) (by decide)
    (by rfl) (by decide) (by decide) (by rfl)

end ProxyMonitor
